import Mathlib

/-!
Verification of the core logic of `apex_dashboard.py` (Apex-Dashboard).

The development shallowly embeds the Python functions that carry the
algorithmic content of the dashboard:

* the match-session detector `monitor_tick`,
* the configuration fingerprint `settings_signature` / `build_launch_string`,
* the deduplicating artifact store `save_unique_json` / `profile_hash`,
* the session-comparison engine `compare_vs_similar` / `find_similar_entries`.

Modelling conventions:

* Python floats are modelled by exact rationals (`Q` below, a numerator /
  denominator pair over `Int` with the denominator kept positive by
  construction).  All arithmetic performed by the embedded code on these
  values (sums, means, differences, comparisons) is exact rational
  arithmetic, and the `"%.nf"` / `"%+.nf"` float formats are modelled by
  decimal rounding half-to-even, which is the rounding Python's fixed-point
  float formatting performs.
* SHA-256 digests are modelled as injective functions of the hashed bytes:
  a digest is represented by the (canonical) value that is serialised and
  hashed, so digest equality coincides with equality of the hashed content.
* `str.lower` is modelled by ASCII lowercasing (`lowerStr`).
* Python values that may be `None`, the empty string, a non-numeric string
  or a number (the metric fields of a session record) are modelled by the
  three-way type `Val`: `absent` (None or `""`), `nonnum` (a string that
  `float(...)` rejects), `num` (a numeric value).
* Code that can raise an uncaught exception is embedded in `Except Unit`.
-/

namespace Apex

/-- Exact rational number: `num / den`.  Stands in for a Python float; the
operations below keep `den` positive whenever the inputs have positive
denominators.  No normalisation is performed, so all operations are plain
integer arithmetic that the kernel can evaluate. -/
structure Q where
  num : Int
  den : Int
deriving DecidableEq, Repr

/-- Embed an integer as a rational. -/
def Q.ofInt (n : Int) : Q := ⟨n, 1⟩

/-- Rational addition (cross multiplication, no reduction). -/
def Q.add (a b : Q) : Q := ⟨a.num * b.den + b.num * a.den, a.den * b.den⟩

/-- Rational subtraction. -/
def Q.sub (a b : Q) : Q := ⟨a.num * b.den - b.num * a.den, a.den * b.den⟩

/-- Divide a rational by a (positive) natural number. -/
def Q.divNat (a : Q) (n : Nat) : Q := ⟨a.num, a.den * (n : Int)⟩

/-- Strict order on rationals, valid for positive denominators. -/
def Q.lt (a b : Q) : Bool := a.num * b.den < b.num * a.den

/-- The semantic value of a `Q` as a real rational number, used to state
that two differently-represented `Q`s denote the same number. -/
def Q.val (a : Q) : Rat := (a.num : Rat) / (a.den : Rat)

/-- `max` of two rationals, mirroring Python's `max(a, b)` (returns `a`
on ties). -/
def qmax (a b : Q) : Q := if Q.lt a b then b else a

/-- Sum of a list of rationals, mirroring Python's `sum` (starts at 0). -/
def qsum (l : List Q) : Q := l.foldl Q.add (Q.ofInt 0)

/-- ASCII lowercasing of one character (model of `str.lower` on the
process names the dashboard compares). -/
def lowerChar (c : Char) : Char :=
  if 'A' ≤ c ∧ c ≤ 'Z' then Char.ofNat (c.toNat + 32) else c

/-- ASCII lowercasing of a string. -/
def lowerStr (s : String) : String := String.mk (s.data.map lowerChar)

/-! ## Match-session detector (`monitor_tick`, source lines 399–446)

The detector's mutable dict `state` becomes the structure `MonitorState`;
the external probes sampled at the top of `monitor_tick`
(`now_iso()`, `get_foreground_window_info()`, `apex_process_running()`,
`get_apex_cpu_pct_sample(...)`) become the fields of `TickInput`. -/

/-- The detector state dict of the source (`st.session_state.monitor_state`),
after the `setdefault` calls at the top of `monitor_tick` have ensured all
keys exist.  `start_streak_needed` / `end_streak_needed` default to 3 / 6. -/
structure MonitorState where
  fg_streak : Nat
  bg_streak : Nat
  in_match : Bool
  match_startISO : String
  match_endISO : String
  cpu_samples : List Q
  cpu_peak : Q
  start_streak_needed : Nat
  end_streak_needed : Nat
  last_tickISO : String
  apex_running : Bool
  apex_foreground : Bool
  fg_title : String
  fg_process : String
deriving DecidableEq, Repr

/-- One tick's worth of externally sampled inputs: the tick timestamp, the
process probe, the foreground-window probe, and the CPU sample that
`get_apex_cpu_pct_sample` would return when the process is running. -/
structure TickInput where
  tick_ts : String
  apex_running : Bool
  fg_title : String
  fg_process : String
  cpu_pct : Q
deriving DecidableEq, Repr

/-- Source line 403: `apex_foreground = apex_running and
(fg.get("process", "").lower() == "r5apex")`. -/
def fgMatch (i : TickInput) : Bool :=
  i.apex_running && (lowerStr i.fg_process == "r5apex")

/-- Shallow embedding of `monitor_tick` (source lines 399–446), with the
probe results passed in as `i`. -/
def monitor_tick (state : MonitorState) (i : TickInput) : MonitorState :=
  let tick_ts := i.tick_ts
  let apex_running := i.apex_running
  let apex_foreground := fgMatch i
  let st1 :=
    if apex_running then
      { state with cpu_samples := state.cpu_samples ++ [i.cpu_pct],
                   cpu_peak := qmax state.cpu_peak i.cpu_pct }
    else state
  let st2 :=
    if apex_foreground then
      { st1 with fg_streak := st1.fg_streak + 1, bg_streak := 0 }
    else
      { st1 with bg_streak := st1.bg_streak + 1, fg_streak := 0 }
  let startStreak := st2.start_streak_needed
  let endStreak := st2.end_streak_needed
  let st3 :=
    if (!st2.in_match) && apex_foreground && decide (startStreak ≤ st2.fg_streak) then
      { st2 with in_match := true, match_startISO := tick_ts, match_endISO := "",
                 cpu_samples := [], cpu_peak := Q.ofInt 0 }
    else st2
  let st4 :=
    if st3.in_match && ((!apex_running) || ((!apex_foreground) && decide (endStreak ≤ st3.bg_streak))) then
      { st3 with in_match := false, match_endISO := tick_ts }
    else st3
  { st4 with last_tickISO := tick_ts, apex_running := apex_running,
             apex_foreground := apex_foreground,
             fg_title := i.fg_title, fg_process := i.fg_process }

/-- Iterating `monitor_tick` over a list of tick inputs. -/
def runTicks (s : MonitorState) (l : List TickInput) : MonitorState :=
  l.foldl monitor_tick s

/-- The monitor state the dashboard initialises in `st.session_state`
(source lines 818–834): default thresholds 3 / 6, idle, empty buffers. -/
def initMonitorState : MonitorState :=
  { fg_streak := 0, bg_streak := 0, in_match := false,
    match_startISO := "", match_endISO := "",
    cpu_samples := [], cpu_peak := Q.ofInt 0,
    start_streak_needed := 3, end_streak_needed := 6,
    last_tickISO := "", apex_running := false, apex_foreground := false,
    fg_title := "", fg_process := "" }

/-- A foreground tick for the C5 scenario (process running, Apex focused). -/
def fgTick (ts : String) : TickInput :=
  { tick_ts := ts, apex_running := true, fg_title := "Apex Legends",
    fg_process := "r5apex", cpu_pct := Q.ofInt 0 }

/-- A background tick for the C5 scenario (process running, focus lost). -/
def bgTick (ts : String) : TickInput :=
  { tick_ts := ts, apex_running := true, fg_title := "Desktop",
    fg_process := "explorer", cpu_pct := Q.ofInt 0 }

/-- The C5 tick schedule: `foreground_match` = [T,T,T,F,F,F,F,F,F]. -/
def c5Ticks : List TickInput :=
  [fgTick ("t1"), fgTick ("t2"), fgTick ("t3"),
   bgTick ("t4"), bgTick ("t5"), bgTick ("t6"),
   bgTick ("t7"), bgTick ("t8"), bgTick ("t9")]

/-- **C5.** With the default thresholds (start 3, end 6), starting idle with
zero streaks and the process running on every tick, the schedule
[T,T,T,F,F,F,F,F,F] opens the session exactly at tick 3 (`in_match`
becomes true there and not before, `match_startISO` = tick-3 timestamp)
and closes it exactly at tick 9 (`in_match` is still true after tick 8,
false after tick 9, `match_endISO` = tick-9 timestamp, background streak 6). -/
theorem monitor_c5_scenario :
    (∀ k, k ≤ 9 →
      ((runTicks initMonitorState (c5Ticks.take k)).in_match = true ↔ (3 ≤ k ∧ k ≤ 8))) ∧
    (runTicks initMonitorState (c5Ticks.take 3)).match_startISO = "t3" ∧
    (runTicks initMonitorState (c5Ticks.take 2)).in_match = false ∧
    (runTicks initMonitorState (c5Ticks.take 8)).match_endISO = "" ∧
    (runTicks initMonitorState c5Ticks).in_match = false ∧
    (runTicks initMonitorState c5Ticks).match_endISO = "t9" ∧
    (runTicks initMonitorState c5Ticks).bg_streak = 6 := by
  decide

/-- Witness for `monitor_c5_scenario`: instantiating its bounded
quantifier at the opening tick. -/
theorem monitor_c5_scenario_witness :
    (runTicks initMonitorState (c5Ticks.take 3)).in_match = true ↔ (3 ≤ 3 ∧ 3 ≤ 8) :=
  monitor_c5_scenario.1 3 (by decide)

/-- **C7.** From `IN_SESSION`, if the process is not running on a tick, the
session closes on that very tick: `in_match` becomes false and
`match_endISO` is set to that tick's timestamp, regardless of the
background-streak count and of the end-streak threshold. -/
theorem monitor_closes_on_process_exit (s : MonitorState) (i : TickInput)
    (hin : s.in_match = true) (hrun : i.apex_running = false) :
    (monitor_tick s i).in_match = false ∧
    (monitor_tick s i).match_endISO = i.tick_ts := by
  simp [monitor_tick, fgMatch, hin, hrun]

/-- Witness for `monitor_closes_on_process_exit`: a concrete in-session
state and a tick with the process gone. -/
theorem monitor_closes_on_process_exit_witness :
    (monitor_tick { initMonitorState with in_match := true, bg_streak := 1 }
      { tick_ts := "t", apex_running := false, fg_title := "",
        fg_process := "", cpu_pct := Q.ofInt 0 }).in_match = false ∧
    (monitor_tick { initMonitorState with in_match := true, bg_streak := 1 }
      { tick_ts := "t", apex_running := false, fg_title := "",
        fg_process := "", cpu_pct := Q.ofInt 0 }).match_endISO = "t" :=
  monitor_closes_on_process_exit _ _ (by decide) (by decide)


/-- On a foreground tick taken while idle with the streak still below the
threshold, the detector stays idle and the foreground streak grows by one. -/
lemma monitor_tick_idle_fg (s : MonitorState) (i : TickInput)
    (hidle : s.in_match = false) (hfg : fgMatch i = true)
    (hlt : s.fg_streak + 1 < s.start_streak_needed) :
    (monitor_tick s i).in_match = false ∧
    (monitor_tick s i).fg_streak = s.fg_streak + 1 ∧
    (monitor_tick s i).start_streak_needed = s.start_streak_needed := by
  have h2 : i.apex_running = true ∧ lowerStr i.fg_process = "r5apex" := by
    simpa [fgMatch] using hfg
  have hns : ¬ s.start_streak_needed ≤ s.fg_streak + 1 := by omega
  simp [monitor_tick, fgMatch, hidle, h2.1, h2.2, hns]

/-- On a foreground tick taken while idle with the streak reaching the
threshold, the session opens: start stamped, end cleared, CPU buffer and
peak reset. -/
lemma monitor_tick_opens (s : MonitorState) (i : TickInput)
    (hidle : s.in_match = false) (hfg : fgMatch i = true)
    (hge : s.start_streak_needed ≤ s.fg_streak + 1) :
    (monitor_tick s i).in_match = true ∧
    (monitor_tick s i).match_startISO = i.tick_ts ∧
    (monitor_tick s i).match_endISO = "" ∧
    (monitor_tick s i).cpu_samples = [] ∧
    (monitor_tick s i).cpu_peak = Q.ofInt 0 := by
  have h2 : i.apex_running = true ∧ lowerStr i.fg_process = "r5apex" := by
    simpa [fgMatch] using hfg
  simp [monitor_tick, fgMatch, hidle, h2.1, h2.2, hge]

/-- **C10.** `monitor_tick` never both opens and closes a session in the
same tick.  The hypotheses are exactly the guard of the
`IDLE → IN_SESSION` transition (source line 429): currently idle,
`foreground_match` true, and the incremented foreground streak reaching
the threshold.  Whenever that transition fires, the tick still ends with
`in_match = true` and an empty `match_endISO`: opening requires
`foreground_match`, which implies `process_running` and falsifies both
close-transition disjuncts on that same tick. -/
theorem monitor_no_open_and_close_same_tick (s : MonitorState) (i : TickInput)
    (hidle : s.in_match = false) (hfg : fgMatch i = true)
    (hge : s.start_streak_needed ≤ s.fg_streak + 1) :
    (monitor_tick s i).in_match = true ∧ (monitor_tick s i).match_endISO = "" :=
  ⟨(monitor_tick_opens s i hidle hfg hge).1,
    (monitor_tick_opens s i hidle hfg hge).2.2.1⟩

/-- Witness for `monitor_no_open_and_close_same_tick`: the open transition
fires on a concrete tick (streak 2 → 3 with threshold 3) and the tick ends
in-session with no end stamp. -/
theorem monitor_no_open_and_close_same_tick_witness :
    (monitor_tick { initMonitorState with fg_streak := 2 } (fgTick ("t3"))).in_match = true ∧
    (monitor_tick { initMonitorState with fg_streak := 2 } (fgTick ("t3"))).match_endISO = "" :=
  monitor_no_open_and_close_same_tick _ _ (by decide) (by decide) (by decide)

/-- Running a block of foreground ticks too short to reach the start
threshold leaves the detector idle and advances the streak by the block
length. -/
lemma runTicks_stays_idle (L : List TickInput) : ∀ (s : MonitorState),
    s.in_match = false → (∀ i ∈ L, fgMatch i = true) →
    s.fg_streak + L.length < s.start_streak_needed →
    (runTicks s L).in_match = false ∧
    (runTicks s L).fg_streak = s.fg_streak + L.length ∧
    (runTicks s L).start_streak_needed = s.start_streak_needed := by
  induction L with
  | nil =>
    intro s hidle _ _
    exact ⟨hidle, by simp [runTicks], rfl⟩
  | cons i L ih =>
    intro s hidle hall hlt
    have hfg : fgMatch i = true := hall i (by simp)
    have hlt' : s.fg_streak + 1 < s.start_streak_needed := by
      simp only [List.length_cons] at hlt
      omega
    have hstep := monitor_tick_idle_fg s i hidle hfg hlt'
    have hrest := ih (monitor_tick s i) hstep.1
      (fun j hj => hall j (by simp [hj]))
      (by rw [hstep.2.1, hstep.2.2]; simp only [List.length_cons] at hlt; omega)
    refine ⟨?_, ?_, ?_⟩
    · simpa [runTicks] using hrest.1
    · have h2 := hrest.2.1
      rw [hstep.2.1] at h2
      simp only [runTicks, List.foldl_cons, List.length_cons]
      rw [show List.foldl monitor_tick (monitor_tick s i) L = runTicks (monitor_tick s i) L from rfl, h2]
      omega
    · have h3 := hrest.2.2
      rw [hstep.2.2] at h3
      exact h3

/-- **C6.** Starting from `IDLE` with a zero foreground streak, feeding the
detector exactly `start_streak_needed` consecutive foreground ticks (with
threshold at least 1): the state is never `IN_SESSION` on any proper
prefix, and after the final tick — the one on which the streak first
reaches the threshold — the state is `IN_SESSION`, `match_startISO` is
that tick's timestamp, `match_endISO` is cleared, and the CPU sample
buffer and peak are reset. -/
theorem monitor_opens_exactly_at_threshold (s : MonitorState)
    (L : List TickInput) (t : TickInput)
    (hidle : s.in_match = false) (hfg0 : s.fg_streak = 0)
    (hpos : 1 ≤ s.start_streak_needed)
    (hall : ∀ i ∈ L, fgMatch i = true)
    (hlen : L.length = s.start_streak_needed)
    (hlast : L.getLast? = some t) :
    (∀ k, k < s.start_streak_needed → (runTicks s (L.take k)).in_match = false) ∧
    (runTicks s L).in_match = true ∧
    (runTicks s L).match_startISO = t.tick_ts ∧
    (runTicks s L).match_endISO = "" ∧
    (runTicks s L).cpu_samples = [] ∧
    (runTicks s L).cpu_peak = Q.ofInt 0 := by
  have hne : L ≠ [] := by
    intro h
    rw [h] at hlen
    simp at hlen
    omega
  constructor
  · intro k hk
    refine (runTicks_stays_idle (L.take k) s hidle
      (fun i hi => hall i (List.take_subset k L hi)) ?_).1
    rw [hfg0, List.length_take]
    omega
  · have hsplit : L.dropLast ++ [t] = L := by
      have h1 : L.getLast hne = t := by
        have h := List.getLast?_eq_getLast L hne
        rw [hlast] at h
        exact (Option.some.inj h).symm
      rw [← h1]
      exact List.dropLast_concat_getLast hne
    have hpre := runTicks_stays_idle L.dropLast s hidle
      (fun i hi => hall i (List.dropLast_subset L hi))
      (by rw [hfg0, List.length_dropLast, hlen]; omega)
    have hrun : runTicks s L = monitor_tick (runTicks s L.dropLast) t := by
      rw [← hsplit]
      simp [runTicks]
    have hopen := monitor_tick_opens (runTicks s L.dropLast) t hpre.1
      (hall t (by rw [← hsplit]; simp))
      (by rw [hpre.2.1, hpre.2.2, hfg0, List.length_dropLast, hlen]; omega)
    rw [hrun]
    exact hopen

/-- Witness for `monitor_opens_exactly_at_threshold`: three foreground
ticks from the default initial state (threshold 3). -/
theorem monitor_opens_exactly_at_threshold_witness :
    (∀ k, k < initMonitorState.start_streak_needed →
      (runTicks initMonitorState ([fgTick ("t1"), fgTick ("t2"), fgTick ("t3")].take k)).in_match = false) ∧
    (runTicks initMonitorState [fgTick ("t1"), fgTick ("t2"), fgTick ("t3")]).in_match = true ∧
    (runTicks initMonitorState [fgTick ("t1"), fgTick ("t2"), fgTick ("t3")]).match_startISO = (fgTick ("t3")).tick_ts ∧
    (runTicks initMonitorState [fgTick ("t1"), fgTick ("t2"), fgTick ("t3")]).match_endISO = "" ∧
    (runTicks initMonitorState [fgTick ("t1"), fgTick ("t2"), fgTick ("t3")]).cpu_samples = [] ∧
    (runTicks initMonitorState [fgTick ("t1"), fgTick ("t2"), fgTick ("t3")]).cpu_peak = Q.ofInt 0 :=
  monitor_opens_exactly_at_threshold initMonitorState _ (fgTick ("t3"))
    (by decide) (by decide) (by decide) (by decide) (by decide) (by decide)

/-! ## Configuration fingerprint (`settings_signature`, source lines 274–281)

`settings_signature` serialises the dict
`{"targets": ..., "toggles": ..., "launch": build_launch_string(...)}`
with `json.dumps(..., sort_keys=True)` and truncates its SHA-256 hex digest
to 12 characters.  Canonical JSON serialisation of this payload is
injective and the digest is modelled as an injective function of the
serialised bytes, so the fingerprint is represented by the payload itself
(`SigPayload`): fingerprint equality coincides with payload equality. -/

/-- The `targets` dict of the profile (source line 57). -/
structure Targets where
  refreshHz : Int
  fpsTarget : Int
  latencyGoalMs : Int
deriving DecidableEq

/-- The `toggles` dict of the profile (source lines 58–65). -/
structure Toggles where
  hdrWindowsOn : Bool
  autoHdrOn : Bool
  rtxHdrOn : Bool
  gsyncOn : Bool
  vsyncInGameOff : Bool
  reflexBoostOn : Bool
deriving DecidableEq

/-- One entry of the `launchOptions` list (source lines 66–76). -/
structure LaunchOption where
  key : String
  enabled : Bool
  note : String
deriving DecidableEq

/-- The slice of a profile that `settings_signature` reads. -/
structure Config where
  targets : Targets
  toggles : Toggles
  launchOptions : List LaunchOption
deriving DecidableEq

/-- Model of Python's `str.strip()`: drop whitespace from both ends. -/
def stripStr (s : String) : String :=
  String.mk (((s.data.dropWhile Char.isWhitespace).reverse.dropWhile Char.isWhitespace).reverse)

/-- Shallow embedding of `build_launch_string` (source lines 236–237):
`" ".join([x["key"].strip() for x in launch_options if x.get("enabled")])`. -/
def build_launch_string (launch_options : List LaunchOption) : String :=
  String.intercalate (" ")
    ((launch_options.filter (fun x => x.enabled)).map (fun x => stripStr x.key))

/-- The hashed payload of `settings_signature`; stands in for the
12-character truncated SHA-256 digest under the injective-digest model. -/
structure SigPayload where
  targets : Targets
  toggles : Toggles
  launch : String
deriving DecidableEq

/-- Shallow embedding of `settings_signature` (source lines 274–281). -/
def settings_signature (c : Config) : SigPayload :=
  { targets := c.targets, toggles := c.toggles,
    launch := build_launch_string c.launchOptions }

/-- Default targets of `DEFAULT_PROFILE` (source line 57). -/
def defaultTargets : Targets := ⟨240, 237, 10⟩

/-- Default toggles of `DEFAULT_PROFILE` (source lines 58–65). -/
def defaultToggles : Toggles := ⟨true, true, false, true, true, true⟩

/-- Two enabled launch options from `DEFAULT_PROFILE`. -/
def optNovid : LaunchOption := ⟨"-novid", true, "Skip intro videos"⟩

/-- Second enabled launch option. -/
def optDev : LaunchOption := ⟨"-dev", true, "Skip more startup animations"⟩

/-- A configuration with two enabled launch options in one order. -/
def cfgAB : Config := ⟨defaultTargets, defaultToggles, [optNovid, optDev]⟩

/-- The same configuration with the launch-option list reordered. -/
def cfgBA : Config := ⟨defaultTargets, defaultToggles, [optDev, optNovid]⟩

/-- **C1, counterexample.** Reordering the launch-option list changes the
fingerprint even though targets, toggles, and the *set* of enabled flags
are unchanged: `build_launch_string` concatenates the enabled keys in list
order ("-novid -dev" vs "-dev -novid"), so the hashed payload differs. -/
theorem settings_signature_not_order_invariant :
    cfgAB.launchOptions.Perm cfgBA.launchOptions ∧
    cfgAB.targets = cfgBA.targets ∧
    cfgAB.toggles = cfgBA.toggles ∧
    settings_signature cfgAB ≠ settings_signature cfgBA := by
  refine ⟨?_, rfl, rfl, by decide⟩
  exact List.Perm.swap _ _ _

/-- `build_launch_string` only depends on the enabled entries: pointwise,
matching enabled flags and matching keys on enabled entries give the same
launch string. -/
lemma launch_filter_congr : ∀ (l₁ l₂ : List LaunchOption),
    List.Forall₂ (fun a b => a.enabled = b.enabled ∧ (a.enabled = true → a.key = b.key)) l₁ l₂ →
    (l₁.filter (fun x => x.enabled)).map (fun x => stripStr x.key) =
      (l₂.filter (fun x => x.enabled)).map (fun x => stripStr x.key)
  | _, _, List.Forall₂.nil => rfl
  | a :: l₁, b :: l₂, List.Forall₂.cons hab htail => by
    obtain ⟨he, hk⟩ := hab
    have ih := launch_filter_congr l₁ l₂ htail
    by_cases hen : a.enabled = true
    · have hbe : b.enabled = true := he ▸ hen
      simp [List.filter_cons, hen, hbe, hk hen, ih]
    · have hen' : a.enabled = false := by simpa using hen
      have hbe' : b.enabled = false := he ▸ hen'
      simp [List.filter_cons, hen', hbe', ih]

/-- **C1, amended.** The fingerprint is unchanged by any change to the
`key` (and `note`) fields of launch-option entries whose `enabled` field
is false; and two configurations yield the same fingerprint iff their
targets, toggles, and *order-sensitive* launch strings (the enabled keys,
stripped, joined in list order) are identical.  It is *not* invariant
under reordering the enabled entries (see
`settings_signature_not_order_invariant`). -/
theorem settings_signature_characterization :
    (∀ c₁ c₂ : Config, c₁.targets = c₂.targets → c₁.toggles = c₂.toggles →
      List.Forall₂ (fun a b => a.enabled = b.enabled ∧ (a.enabled = true → a.key = b.key))
        c₁.launchOptions c₂.launchOptions →
      settings_signature c₁ = settings_signature c₂) ∧
    (∀ c₁ c₂ : Config, settings_signature c₁ = settings_signature c₂ ↔
      (c₁.targets = c₂.targets ∧ c₁.toggles = c₂.toggles ∧
        build_launch_string c₁.launchOptions = build_launch_string c₂.launchOptions)) := by
  constructor
  · intro c₁ c₂ ht hg hf
    have hl : build_launch_string c₁.launchOptions = build_launch_string c₂.launchOptions := by
      unfold build_launch_string
      rw [launch_filter_congr _ _ hf]
    simp [settings_signature, ht, hg, hl]
  · intro c₁ c₂
    simp [settings_signature, SigPayload.mk.injEq]

/-- A disabled launch option. -/
def optRefreshOff : LaunchOption := ⟨"-refresh 240", false, "Force 240Hz"⟩

/-- The same disabled slot with a different key. -/
def optFullscreenOff : LaunchOption := ⟨"-fullscreen", false, "Force fullscreen"⟩

/-- Configuration with one enabled and one disabled launch option. -/
def cfgDisA : Config := ⟨defaultTargets, defaultToggles, [optNovid, optRefreshOff]⟩

/-- Same configuration with the disabled entry's key changed. -/
def cfgDisB : Config := ⟨defaultTargets, defaultToggles, [optNovid, optFullscreenOff]⟩

/-- Witness for `settings_signature_characterization`: changing the key of
a disabled launch option leaves the fingerprint unchanged. -/
theorem settings_signature_characterization_witness :
    settings_signature cfgDisA = settings_signature cfgDisB :=
  settings_signature_characterization.1 cfgDisA cfgDisB rfl rfl
    (List.Forall₂.cons ⟨rfl, fun _ => rfl⟩
      (List.Forall₂.cons ⟨rfl, fun h => Bool.noConfusion h⟩ List.Forall₂.nil))

/-! ## Deduplicated artifact store
(`profile_hash` lines 202–207, `save_unique_json` lines 219–234)

`profile_hash` deep-copies the document, masks `meta.lastUpdatedISO` (when
present) to the sentinel `"LOCKED"`, and hashes the canonical
(`sort_keys=True`) serialisation with SHA-256.  The digest is modelled as
an injective function of the serialised document, so the hash is
represented by the masked document itself.  The on-disk index
(`load_index` / `save_index`) and the files written by `safe_save_json`
become the explicitly threaded `Store` state. -/

/-- The `meta` dict of a profile document: the name used for filenames,
the volatile timestamp (absent when the key is missing), and the remaining
meta fields, opaque. -/
structure Meta where
  profileName : String
  lastUpdatedISO : Option String
  rest : String
deriving DecidableEq

/-- A JSON document as `save_unique_json` sees it: an optional `meta`
dict plus the rest of the document, opaque. -/
structure Doc where
  meta : Option Meta
  body : String
deriving DecidableEq

/-- Shallow embedding of `profile_hash` (source lines 202–207): the masked
document, standing in for its SHA-256 digest under the injective-digest
model. -/
def profile_hash (profile : Doc) : Doc :=
  { profile with
    meta := profile.meta.map (fun m =>
      { m with lastUpdatedISO := m.lastUpdatedISO.map (fun _ => "LOCKED") }) }

/-- The persistent state touched by `save_unique_json`: the
`hash_to_file` index and the list of file paths written so far. -/
structure Store where
  hash_to_file : List (Doc × String)
  written : List String
deriving DecidableEq

/-- Lookup in the `hash_to_file` index. -/
def lookupHash : List (Doc × String) → Doc → Option String
  | [], _ => none
  | (h, p) :: rest, d => if h = d then some p else lookupHash rest d

/-- One character of `slug` (source lines 189–200): keep alphanumerics,
`-` and `_`; map whitespace to `_`; drop everything else. -/
def slugKeep (ch : Char) : Option Char :=
  if ch.isAlphanum || ch = '-' || ch = '_' then some ch
  else if ch.isWhitespace then some '_' else none

/-- The `while "__" in name: name = name.replace("__", "_")` loop of
`slug`: its fixpoint collapses every run of underscores to a single one. -/
def collapseUnd : List Char → List Char
  | [] => []
  | c :: rest =>
    match rest with
    | [] => [c]
    | c₂ :: _ => if c = '_' && c₂ = '_' then collapseUnd rest else c :: collapseUnd rest

/-- Shallow embedding of `slug` (source lines 189–200). -/
def slug (s : String) : String :=
  let t := stripStr s
  let name := String.mk (collapseUnd (t.data.filterMap slugKeep))
  if name = "" then ("profile") else String.mk (name.data.take 60)

/-- Shallow embedding of `save_unique_json` (source lines 219–234) on a
dict document.  `ts` is the `strftime` timestamp sampled inside the
function; the folder/index state is threaded through `st`. -/
def save_unique_json (st : Store) (folder : String) (obj : Doc)
    (reason : String) (pfx : String) (ts : String) : (Bool × String) × Store :=
  let h := profile_hash obj
  match lookupHash st.hash_to_file h with
  | some path => ((false, path), st)
  | none =>
    let name := slug (match obj.meta with | some m => m.profileName | none => ("profile"))
    let r := if reason = "" then ("snapshot") else slug reason
    let filename := pfx ++ "_" ++ name ++ "_" ++ ts ++ "_" ++ r ++ ".json"
    let path := folder ++ "/" ++ filename
    ((true, path),
      { hash_to_file := st.hash_to_file ++ [(h, path)],
        written := st.written ++ [path] })

/-- Appending a fresh binding to the index makes lookup of its hash find
exactly that binding. -/
lemma lookupHash_append_self (l : List (Doc × String)) (h : Doc) (p : String)
    (hnone : lookupHash l h = none) : lookupHash (l ++ [(h, p)]) h = some p := by
  induction l with
  | nil => simp [lookupHash]
  | cons a rest ih =>
    obtain ⟨hd, pd⟩ := a
    by_cases heq : hd = h
    · simp [lookupHash, heq] at hnone
    · simp only [List.cons_append, lookupHash, if_neg heq] at hnone ⊢
      exact ih hnone

/-- **C2.** Calling `save_unique_json` twice with documents that differ
only in the `meta.lastUpdatedISO` value (both present), starting from a
state whose index does not yet contain their masked-content hash: the
first call returns `(true, p)` and writes `p`; the second returns
`(false, p)` with the same path and writes nothing; afterwards exactly one
file was written and the index maps the masked-content hash to exactly
that path. -/
theorem save_unique_json_dedups (st : Store) (folder reason pfx ts₁ ts₂ : String)
    (d₁ d₂ : Doc) (m₁ m₂ : Meta) (t₁ t₂ : String)
    (b₁ b₂ : Bool) (p₁ p₂ : String) (st₁ st₂ : Store)
    (hm₁ : d₁.meta = some m₁) (hm₂ : d₂.meta = some m₂)
    (hts₁ : m₁.lastUpdatedISO = some t₁) (hts₂ : m₂.lastUpdatedISO = some t₂)
    (hname : m₁.profileName = m₂.profileName) (hrest : m₁.rest = m₂.rest)
    (hbody : d₁.body = d₂.body)
    (hfresh : lookupHash st.hash_to_file (profile_hash d₁) = none)
    (hr₁ : save_unique_json st folder d₁ reason pfx ts₁ = ((b₁, p₁), st₁))
    (hr₂ : save_unique_json st₁ folder d₂ reason pfx ts₂ = ((b₂, p₂), st₂)) :
    b₁ = true ∧ b₂ = false ∧ p₂ = p₁ ∧
    st₂.written = st.written ++ [p₁] ∧
    st₂.hash_to_file = st.hash_to_file ++ [(profile_hash d₁, p₁)] ∧
    lookupHash st₂.hash_to_file (profile_hash d₂) = some p₁ := by
  have hh : profile_hash d₂ = profile_hash d₁ := by
    simp [profile_hash, hm₁, hm₂, hts₁, hts₂]
    obtain ⟨mm₁, ml₁, mr₁⟩ := m₁
    obtain ⟨mm₂, ml₂, mr₂⟩ := m₂
    obtain ⟨dm₁, db₁⟩ := d₁
    obtain ⟨dm₂, db₂⟩ := d₂
    simp at hname hrest hbody hm₁ hm₂ ⊢
    simp [hm₁, hm₂, hname, hrest, hbody]
  simp only [save_unique_json, hfresh, Prod.mk.injEq] at hr₁
  obtain ⟨⟨hb₁, hp₁⟩, hst₁⟩ := hr₁
  have hlook : lookupHash st₁.hash_to_file (profile_hash d₂) = some p₁ := by
    rw [← hst₁, hh, ← hp₁]
    exact lookupHash_append_self _ _ _ hfresh
  simp only [save_unique_json, hlook, Prod.mk.injEq] at hr₂
  obtain ⟨⟨hb₂, hp₂⟩, hst₂⟩ := hr₂
  refine ⟨hb₁.symm, hb₂.symm, hp₂.symm, ?_, ?_, ?_⟩
  · rw [← hst₂, ← hst₁, ← hp₁]
  · rw [← hst₂, ← hst₁, ← hp₁]
  · rw [← hst₂]
    exact hlook

/-- A store whose index is empty. -/
def emptyStore : Store := ⟨[], []⟩

/-- A concrete profile document. -/
def docT1 : Doc :=
  ⟨some ⟨"Apex - Competitive", some ("2026-01-01T00:00:00"), "meta-rest"⟩, "body"⟩

/-- The same document with only the `meta.lastUpdatedISO` value changed. -/
def docT2 : Doc :=
  ⟨some ⟨"Apex - Competitive", some ("2026-01-02T12:00:00"), "meta-rest"⟩, "body"⟩

/-- The path the first `save_unique_json` call on `docT1` produces. -/
def pPath : String := "Snapshots/SNAP_Apex_-_Competitive_20260101_000000_manual.json"

/-- The store state after that first call. -/
def storeAfter : Store := ⟨[(profile_hash docT1, pPath)], [pPath]⟩

/-- Witness for `save_unique_json_dedups`: concrete back-to-back saves of
the same document with two timestamps. -/
theorem save_unique_json_dedups_witness :
    true = true ∧ false = false ∧ pPath = pPath ∧
    storeAfter.written = emptyStore.written ++ [pPath] ∧
    storeAfter.hash_to_file = emptyStore.hash_to_file ++ [(profile_hash docT1, pPath)] ∧
    lookupHash storeAfter.hash_to_file (profile_hash docT2) = some pPath :=
  save_unique_json_dedups emptyStore ("Snapshots") ("manual") ("SNAP")
    ("20260101_000000") ("20260102_120000") docT1 docT2
    ⟨"Apex - Competitive", some ("2026-01-01T00:00:00"), "meta-rest"⟩
    ⟨"Apex - Competitive", some ("2026-01-02T12:00:00"), "meta-rest"⟩
    ("2026-01-01T00:00:00") ("2026-01-02T12:00:00")
    true false pPath pPath storeAfter storeAfter
    rfl rfl rfl rfl rfl rfl rfl (by decide) (by decide) (by decide)

/-! ## Session-comparison engine
(`find_similar_entries` lines 455–456, `compare_vs_similar` lines 458–512)

Record metric fields hold Python `None`, `""`, a non-numeric string, or a
number; these classes are `Val.absent`, `Val.absent`, `Val.nonnum`,
`Val.num`.  (`mean_of` skips `None`/`""` explicitly and non-numeric
strings through its `except: continue`.)  `float` formatting is modelled
on exact rationals with decimal rounding half-to-even; an uncaught
`ValueError` — possible only from `float(...)` on line 476 and
`int(cur_ping)` on line 492 — is `Except.error ()`. -/

deriving instance DecidableEq for Except

/-- A metric field value of a session record. -/
inductive Val where
  | absent : Val
  | nonnum : Val
  | num : Q → Val
deriving DecidableEq

/-- Does `float(v)` succeed on a present value?  (True exactly for
numbers.) -/
def usable (v : Val) : Bool :=
  match v with
  | Val.num _ => true
  | _ => false

/-- A session record, restricted to the fields the comparison engine
reads. -/
structure SessionRecord where
  settings_signature : String
  hdr_mode : String
  cpu_avg_pct : Val
  ping_ms : Val
  packet_loss_pct : Val
  avg_fps : Val
  one_percent_low : Val
deriving DecidableEq

/-- Shallow embedding of `find_similar_entries` (source lines 455–456). -/
def find_similar_entries (logs : List SessionRecord) (sig : String)
    (hdr_mode : String) : List SessionRecord :=
  logs.filter (fun x => x.settings_signature == sig && x.hdr_mode == hdr_mode)

/-- The inner `mean_of` of `compare_vs_similar` (source lines 462–474):
skip absent and non-numeric values; `None` when nothing is usable. -/
def mean_of (sel : SessionRecord → Val) (similar : List SessionRecord) : Option Q :=
  let vals := similar.filterMap (fun s =>
    match sel s with
    | Val.num x => some x
    | _ => none)
  if vals.isEmpty then none else some (Q.divNat (qsum vals) vals.length)

/-- Decimal digits of `n` (most significant first), via fuelled division
by 10 so the kernel can evaluate it; empty for 0. -/
def natCharsAux : Nat → Nat → List Char
  | 0, _ => []
  | fuel + 1, n => if n = 0 then [] else natCharsAux fuel (n / 10) ++ [Char.ofNat (48 + n % 10)]

/-- Decimal rendering of a natural number. -/
def natStr (n : Nat) : String :=
  if n = 0 then ("0") else String.mk (natCharsAux (n + 1) n)

/-- Decimal rendering of an integer (Python `str`/`{,d}` of an int). -/
def intStr (i : Int) : String :=
  (if i < 0 then ("-") else ("")) ++ natStr i.natAbs

/-- Exactly `p` decimal digits of `m`, zero-padded on the left (the
fractional part of a fixed-point rendering; `m < 10 ^ p`). -/
def padDigits : Nat → Nat → List Char
  | 0, _ => []
  | k + 1, m => padDigits k (m / 10) ++ [Char.ofNat (48 + m % 10)]

/-- Round `n / d` (with `d > 0`) to the nearest integer, ties to even:
the rounding of Python's fixed-point float formatting. -/
def roundHalfEvenScaled (n d : Int) : Int :=
  let f := n.fdiv d
  let r := n.fmod d
  if 2 * r < d then f
  else if d < 2 * r then f + 1
  else if f % 2 = 0 then f else f + 1

/-- `x * 10 ^ p` rounded half-to-even to an integer. -/
def qround (p : Nat) (x : Q) : Int :=
  roundHalfEvenScaled (x.num * (10 : Int) ^ p) x.den

/-- Model of Python `f"{x:.pf}"`: fixed-point with `p` fractional
digits. -/
def fmtFixed (p : Nat) (x : Q) : String :=
  let s := qround p x
  (if s < 0 then ("-") else ("")) ++ natStr (s.natAbs / 10 ^ p) ++ "." ++
    String.mk (padDigits p (s.natAbs % 10 ^ p))

/-- Model of Python `f"{x:+.pf}"`: as `fmtFixed` with an explicit sign. -/
def fmtSigned (p : Nat) (x : Q) : String :=
  let s := qround p x
  (if s < 0 then ("-") else ("+")) ++ natStr (s.natAbs / 10 ^ p) ++ "." ++
    String.mk (padDigits p (s.natAbs % 10 ^ p))

/-- Model of Python `int(x)` on a number: truncation toward zero. -/
def intTrunc (x : Q) : Int := x.num.tdiv x.den

/-- The CPU fragment of source line 490 (grouped so that the label is the
left operand of the outermost append). -/
def cpuFragment (cur m : Q) : String :=
  "CPU avg: " ++ (fmtFixed 2 cur ++ ("% vs " ++ (fmtFixed 2 m ++ ("% (" ++ (fmtSigned 2 (Q.sub cur m) ++ ")")))))

/-- The ping fragment of source line 492: current ping and delta use
`int(cur_ping)`, the delta is formatted `+.1f`, the mean `.1f`. -/
def pingFragment (cur : Int) (m : Q) : String :=
  "Ping: " ++ (intStr cur ++ ("ms vs " ++ (fmtFixed 1 m ++ ("ms (" ++ (fmtSigned 1 (Q.sub (Q.ofInt cur) m) ++ ")")))))

/-- The packet-loss fragment of source line 496. -/
def lossFragment (cur m : Q) : String :=
  "Loss: " ++ (fmtFixed 1 cur ++ ("% vs " ++ (fmtFixed 1 m ++ ("% (" ++ (fmtSigned 1 (Q.sub cur m) ++ ")")))))

/-- The average-FPS fragment of source line 502. -/
def fpsFragment (cur m : Q) : String :=
  "Avg FPS: " ++ (fmtFixed 1 cur ++ (" vs " ++ (fmtFixed 1 m ++ (" (" ++ (fmtSigned 1 (Q.sub cur m) ++ ")")))))

/-- The 1%-low fragment of source line 508. -/
def onePctFragment (cur m : Q) : String :=
  "1% Low: " ++ (fmtFixed 1 cur ++ (" vs " ++ (fmtFixed 1 m ++ (" (" ++ (fmtSigned 1 (Q.sub cur m) ++ ")")))))

/-- Source line 476, `float(current.get("cpu_avg_pct", 0) or 0)`: absent
values default to 0; a non-numeric string raises. -/
def floatOrZero (v : Val) : Except Unit Q :=
  match v with
  | Val.num x => Except.ok x
  | Val.absent => Except.ok (Q.ofInt 0)
  | Val.nonnum => Except.error ()

/-- Source lines 489–490: the CPU fragment is emitted whenever the pool
mean exists, regardless of the current value. -/
def cpuParts (avg : Option Q) (cur : Q) : List String :=
  match avg with
  | some m => [cpuFragment cur m]
  | none => []

/-- Source lines 491–492: emitted only when the current ping is present
*and* the mean exists; `int(cur_ping)` raises on a non-numeric string
(this branch is not wrapped in `try`). -/
def pingParts (cur : Val) (avg : Option Q) : Except Unit (List String) :=
  match cur, avg with
  | Val.absent, _ => Except.ok []
  | _, none => Except.ok []
  | Val.nonnum, some _ => Except.error ()
  | Val.num x, some m => Except.ok [pingFragment (intTrunc x) m]

/-- Source lines 493–510 (loss / avg-FPS / 1%-low): emitted only when the
current value is present and numeric and the mean exists; the `try`
swallows the non-numeric case. -/
def tryParts (frag : Q → Q → String) (cur : Val) (avg : Option Q) : List String :=
  match cur, avg with
  | Val.num x, some m => [frag x m]
  | _, _ => []

/-- The `parts` list of `compare_vs_similar` (source lines 488–510). -/
def compareParts (similar : List SessionRecord) (current : SessionRecord) :
    Except Unit (List String) :=
  match floatOrZero current.cpu_avg_pct,
        pingParts current.ping_ms (mean_of (fun s => s.ping_ms) similar) with
  | Except.error e, _ => Except.error e
  | _, Except.error e => Except.error e
  | Except.ok cur_cpu, Except.ok pp =>
    Except.ok
      (cpuParts (mean_of (fun s => s.cpu_avg_pct) similar) cur_cpu ++ pp ++
        tryParts lossFragment current.packet_loss_pct (mean_of (fun s => s.packet_loss_pct) similar) ++
        tryParts fpsFragment current.avg_fps (mean_of (fun s => s.avg_fps) similar) ++
        tryParts onePctFragment current.one_percent_low (mean_of (fun s => s.one_percent_low) similar))

/-- Shallow embedding of `compare_vs_similar` (source lines 458–512). -/
def compare_vs_similar (similar : List SessionRecord) (current : SessionRecord) :
    Except Unit String :=
  if similar.isEmpty then Except.ok ("No prior similar sessions found.")
  else
    match compareParts similar current with
    | Except.error e => Except.error e
    | Except.ok parts =>
      Except.ok
        (if parts.isEmpty then
          ("Similar sessions exist, but not enough comparable numeric fields logged yet.")
        else String.intercalate (" | ") parts)

/-- Session record with fingerprint `"abc123"`, HDR label
`"HDR ON (Auto HDR)"` and CPU average 40.0, other metrics absent. -/
def rec40 : SessionRecord :=
  ⟨"abc123", "HDR ON (Auto HDR)", Val.num ⟨40, 1⟩, Val.absent, Val.absent, Val.absent, Val.absent⟩

/-- As `rec40` with CPU average 50.0. -/
def rec50 : SessionRecord :=
  ⟨"abc123", "HDR ON (Auto HDR)", Val.num ⟨50, 1⟩, Val.absent, Val.absent, Val.absent, Val.absent⟩

/-- A distractor record with a different fingerprint and HDR label. -/
def recOther : SessionRecord :=
  ⟨"zzz999", "HDR OFF (SDR)", Val.num ⟨99, 1⟩, Val.absent, Val.absent, Val.absent, Val.absent⟩

/-- The current session of the C9 scenario: CPU average 48.0. -/
def cur48 : SessionRecord :=
  ⟨"abc123", "HDR ON (Auto HDR)", Val.num ⟨48, 1⟩, Val.absent, Val.absent, Val.absent, Val.absent⟩

/-- A candidate whose only usable metric is ping = 50. -/
def recPing50 : SessionRecord :=
  ⟨"abc123", "HDR ON (Auto HDR)", Val.absent, Val.num ⟨50, 1⟩, Val.absent, Val.absent, Val.absent⟩

/-- A current session whose only usable metric is ping = 55. -/
def curPing55 : SessionRecord :=
  ⟨"abc123", "HDR ON (Auto HDR)", Val.absent, Val.num ⟨55, 1⟩, Val.absent, Val.absent, Val.absent⟩

/-- A current session with every metric absent. -/
def curAllAbsent : SessionRecord :=
  ⟨"abc123", "HDR ON (Auto HDR)", Val.absent, Val.absent, Val.absent, Val.absent, Val.absent⟩

/-- A candidate with every metric absent. -/
def recAllAbsent : SessionRecord :=
  ⟨"abc123", "HDR ON (Auto HDR)", Val.absent, Val.absent, Val.absent, Val.absent, Val.absent⟩

/-- A current session whose CPU-average field is a non-numeric string. -/
def curBadCpu : SessionRecord :=
  ⟨"abc123", "HDR ON (Auto HDR)", Val.nonnum, Val.absent, Val.absent, Val.absent, Val.absent⟩

/-- **C9.** Two records sharing fingerprint `"abc123"` and HDR label
`"HDR ON (Auto HDR)"` with CPU averages 40.0 and 50.0, compared against a
new session with CPU average 48.0 (pool selected by
`find_similar_entries`, a distractor filtered out), produce exactly the
CPU fragment `"CPU avg: 48.00% vs 45.00% (+3.00)"` — in particular the
output contains that fragment. -/
theorem compare_c9_cpu_fragment :
    compare_vs_similar
        (find_similar_entries [rec40, rec50, recOther] ("abc123") ("HDR ON (Auto HDR)"))
        cur48 =
      Except.ok ("CPU avg: 48.00% vs 45.00% (+3.00)") := by
  decide

/-- **C3, counterexample.** The pool's ping mean is computable (candidate
ping 50), yet because the *current* session's ping is absent no ping
fragment is emitted — the output is the no-fragment message.  This
refutes "whether the current session's own value is absent does not
suppress the fragment". -/
theorem compare_absent_current_suppresses_ping :
    (mean_of (fun s => s.ping_ms) [recPing50]).isSome = true ∧
    compare_vs_similar [recPing50] curAllAbsent =
      Except.ok ("Similar sessions exist, but not enough comparable numeric fields logged yet.") := by
  decide

/-- **C4, counterexample.** In an emitted ping fragment the signed delta
is *not* formatted as an integer: with current ping 55 and pool mean 50.0
the fragment reads `"(+5.0)"` (one decimal place, Python `:+.1f`), not
`"(+5)"`. -/
theorem compare_ping_delta_has_decimal :
    compare_vs_similar [recPing50] curPing55 =
      Except.ok ("Ping: 55ms vs 50.0ms (+5.0)") ∧
    ("Ping: 55ms vs 50.0ms (+5.0)" : String) ≠ "Ping: 55ms vs 50.0ms (+5)" := by
  decide

/-- **C8, counterexample.** With a non-empty pool whose every metric field
is absent (so no field produces a fragment), `compare_vs_similar` does
*not* always return the fixed not-enough-data message: when the current
record's CPU-average field is a non-numeric string,
`float(current.get("cpu_avg_pct", 0) or 0)` on line 476 raises, so the
call propagates an exception instead of returning. -/
theorem compare_not_enough_data_can_raise :
    ([recAllAbsent] ≠ ([] : List SessionRecord)) ∧
    (usable recAllAbsent.cpu_avg_pct = false ∧ usable recAllAbsent.ping_ms = false ∧
     usable recAllAbsent.packet_loss_pct = false ∧ usable recAllAbsent.avg_fps = false ∧
     usable recAllAbsent.one_percent_low = false) ∧
    compare_vs_similar [recAllAbsent] curBadCpu = Except.error () := by
  decide

/-! ## String-shape observations used to state C3 and C4

A fragment of the comparison output is identified by its leading label
(the five labels start with five distinct characters), and "formatted
with `p` decimal places" is read off as the number of characters after
the last `.` of the formatted component. -/

/-- String append acts as append on the underlying character lists. -/
lemma strData_append (s t : String) : (s ++ t).data = s.data ++ t.data := by
  cases s
  cases t
  rfl

/-- A list is a `isPrefixOf` of itself followed by anything. -/
lemma isPrefixOf_self_append (l t : List Char) : l.isPrefixOf (l ++ t) = true := by
  induction l with
  | nil => simp [List.isPrefixOf]
  | cons a l ih => simp [List.isPrefixOf, ih]

/-- Lists starting with distinct characters are not prefixes of one
another. -/
lemma isPrefixOf_false_of_head_ne (a b : Char) (l₁ l₂ : List Char)
    (h : (a == b) = false) : (a :: l₁).isPrefixOf (b :: l₂) = false := by
  simp [List.isPrefixOf, h]

/-- A label whose first character differs from the first character of
`pre` is not a prefix of `pre ++ rest`. -/
lemma not_prefix_of_append {lab pre rest : String} {a b : Char}
    {l₁ l₂ : List Char} (hl : lab.data = a :: l₁) (hp : pre.data = b :: l₂)
    (hab : (a == b) = false) :
    lab.data.isPrefixOf (pre ++ rest).data = false := by
  rw [strData_append, hl, hp, List.cons_append]
  exact isPrefixOf_false_of_head_ne a b l₁ (l₂ ++ rest.data) hab

/-- Does some element of `parts` start with `label`? -/
def hasFragment (parts : List String) (label : String) : Bool :=
  parts.any (fun s => label.data.isPrefixOf s.data)

/-- `hasFragment` distributes over append. -/
lemma hasFragment_append (l₁ l₂ : List String) (lab : String) :
    hasFragment (l₁ ++ l₂) lab = (hasFragment l₁ lab || hasFragment l₂ lab) := by
  simp [hasFragment]

/-- Number of characters after the last `.` of a character list (`none`
when there is no `.`): the "decimal places" of a rendered number. -/
def fracCountL (l : List Char) : Option Nat :=
  if '.' ∈ l then some ((l.reverse.takeWhile (fun c => c != '.')).length) else none

/-- `fracCountL` of a dot-free list is `none`. -/
lemma fracCountL_of_no_dot (l : List Char) (h : ∀ c ∈ l, c ≠ '.') :
    fracCountL l = none := by
  have hm : '.' ∉ l := fun hmem => h _ hmem rfl
  simp [fracCountL, hm]

/-- `takeWhile (· != '.')` of `l₁ ++ '.' :: l₂` is `l₁` when `l₁` is
dot-free. -/
lemma takeWhile_neq_dot (l₁ l₂ : List Char) (h : ∀ c ∈ l₁, c ≠ '.') :
    (l₁ ++ '.' :: l₂).takeWhile (fun c => c != '.') = l₁ := by
  induction l₁ with
  | nil => simp [List.takeWhile_cons]
  | cons a l ih =>
    have ha : (a != '.') = true := by
      simpa using h a (by simp)
    simp [List.takeWhile_cons, ha, ih (fun c hc => h c (by simp [hc]))]

/-- `fracCountL` of `a ++ '.' :: b` with dot-free `b` counts `b`. -/
lemma fracCountL_append_dot (a b : List Char) (h : ∀ c ∈ b, c ≠ '.') :
    fracCountL (a ++ '.' :: b) = some b.length := by
  have hmem : '.' ∈ a ++ '.' :: b := by simp
  simp only [fracCountL, if_pos hmem]
  rw [List.reverse_append, List.reverse_cons, List.append_assoc, List.singleton_append]
  rw [takeWhile_neq_dot _ _ (fun c hc => h c (List.mem_reverse.mp hc))]
  simp

/-- Every digit character differs from `.`. -/
lemma digitChar_ne_dot (d : Nat) (hd : d < 10) : Char.ofNat (48 + d) ≠ '.' := by
  have hall : ∀ e : Fin 10, Char.ofNat (48 + e.val) ≠ '.' := by decide
  exact hall ⟨d, hd⟩

/-- The characters produced by `natCharsAux` are digits, hence not `.`. -/
lemma natCharsAux_no_dot (fuel : Nat) : ∀ (n : Nat), ∀ c ∈ natCharsAux fuel n, c ≠ '.' := by
  induction fuel with
  | zero => intro n c hc; simp [natCharsAux] at hc
  | succ fuel ih =>
    intro n c hc
    by_cases hn : n = 0
    · simp [natCharsAux, hn] at hc
    · simp only [natCharsAux, if_neg hn, List.mem_append, List.mem_singleton] at hc
      rcases hc with hc | hc
      · exact ih (n / 10) c hc
      · rw [hc]
        exact digitChar_ne_dot _ (Nat.mod_lt _ (by omega))

/-- `natStr` contains no `.`. -/
lemma natStr_no_dot (n : Nat) : ∀ c ∈ (natStr n).data, c ≠ '.' := by
  intro c hc
  unfold natStr at hc
  by_cases hn : n = 0
  · rw [if_pos hn] at hc
    simp at hc
    rw [hc]
    decide
  · rw [if_neg hn] at hc
    exact natCharsAux_no_dot (n + 1) n c hc

/-- `padDigits` contains no `.`. -/
lemma padDigits_no_dot (p : Nat) : ∀ (m : Nat), ∀ c ∈ padDigits p m, c ≠ '.' := by
  induction p with
  | zero => intro m c hc; simp [padDigits] at hc
  | succ p ih =>
    intro m c hc
    simp only [padDigits, List.mem_append, List.mem_singleton] at hc
    rcases hc with hc | hc
    · exact ih (m / 10) c hc
    · rw [hc]
      exact digitChar_ne_dot _ (Nat.mod_lt _ (by omega))

/-- `padDigits p m` has exactly `p` characters. -/
lemma padDigits_length (p : Nat) : ∀ (m : Nat), (padDigits p m).length = p := by
  induction p with
  | zero => intro m; rfl
  | succ p ih => intro m; simp [padDigits, ih]

/-- `fmtFixed p x` has exactly `p` decimal places. -/
lemma fmtFixed_fracCount (p : Nat) (x : Q) :
    fracCountL (fmtFixed p x).data = some p := by
  unfold fmtFixed
  rw [strData_append, strData_append, strData_append]
  have hdot : (("." : String)).data = ['.'] := rfl
  rw [hdot, List.append_assoc, List.append_assoc, List.singleton_append,
    ← List.append_assoc]
  rw [fracCountL_append_dot _ _ (by
    intro c hc
    exact padDigits_no_dot p _ c hc)]
  rw [padDigits_length]

/-- `fmtSigned p x` has exactly `p` decimal places. -/
lemma fmtSigned_fracCount (p : Nat) (x : Q) :
    fracCountL (fmtSigned p x).data = some p := by
  unfold fmtSigned
  rw [strData_append, strData_append, strData_append]
  have hdot : (("." : String)).data = ['.'] := rfl
  rw [hdot, List.append_assoc, List.append_assoc, List.singleton_append,
    ← List.append_assoc]
  rw [fracCountL_append_dot _ _ (by
    intro c hc
    exact padDigits_no_dot p _ c hc)]
  rw [padDigits_length]

/-- `intStr` renders an integer with no decimal point at all. -/
lemma intStr_fracCount (i : Int) : fracCountL (intStr i).data = none := by
  unfold intStr
  rw [strData_append]
  apply fracCountL_of_no_dot
  intro c hc
  rcases List.mem_append.mp hc with hc | hc
  · by_cases hi : i < 0
    · rw [if_pos hi] at hc
      simp at hc
      rw [hc]
      decide
    · rw [if_neg hi] at hc
      simp at hc
  · exact natStr_no_dot _ c hc

/-- The CPU fragment list has a "CPU avg: " fragment exactly when the pool
mean exists — the current value never suppresses it. -/
lemma cpuParts_own (avg : Option Q) (cur : Q) :
    hasFragment (cpuParts avg cur) ("CPU avg: ") = avg.isSome := by
  cases avg with
  | none => rfl
  | some m =>
    simp only [cpuParts, hasFragment, List.any_cons, List.any_nil, Bool.or_false,
      cpuFragment, Option.isSome_some]
    rw [strData_append]
    exact isPrefixOf_self_append _ _

/-- The CPU fragment list contains no fragment with another label. -/
lemma cpuParts_other (avg : Option Q) (cur : Q) {lab : String} {a : Char}
    {l₁ : List Char} (hl : lab.data = a :: l₁) (ha : (a == 'C') = false) :
    hasFragment (cpuParts avg cur) lab = false := by
  cases avg with
  | none => rfl
  | some m =>
    simp only [cpuParts, hasFragment, List.any_cons, List.any_nil, Bool.or_false, cpuFragment]
    exact not_prefix_of_append hl rfl ha

/-- The ping fragment list has a "Ping: " fragment exactly when the pool
mean exists and the current ping is a number. -/
lemma pingParts_own (cur : Val) (avg : Option Q) (l : List String)
    (h : pingParts cur avg = Except.ok l) :
    hasFragment l ("Ping: ") = (avg.isSome && usable cur) := by
  cases cur with
  | absent =>
    cases avg <;>
      · simp only [pingParts] at h
        injection h with h
        subst h
        simp [usable, hasFragment]
  | nonnum =>
    cases avg with
    | none =>
      simp only [pingParts] at h
      injection h with h
      subst h
      simp [usable, hasFragment]
    | some m => simp [pingParts] at h
  | num x =>
    cases avg with
    | none =>
      simp only [pingParts] at h
      injection h with h
      subst h
      simp [usable, hasFragment]
    | some m =>
      simp only [pingParts] at h
      injection h with h
      subst h
      simp only [hasFragment, List.any_cons, List.any_nil, Bool.or_false,
        pingFragment, Option.isSome_some, usable, Bool.true_and]
      rw [strData_append]
      exact isPrefixOf_self_append _ _

/-- The ping fragment list contains no fragment with another label. -/
lemma pingParts_other (cur : Val) (avg : Option Q) (l : List String)
    (h : pingParts cur avg = Except.ok l) {lab : String} {a : Char}
    {l₁ : List Char} (hl : lab.data = a :: l₁) (ha : (a == 'P') = false) :
    hasFragment l lab = false := by
  cases cur with
  | absent =>
    cases avg <;>
      · simp only [pingParts] at h
        injection h with h
        subst h
        rfl
  | nonnum =>
    cases avg with
    | none =>
      simp only [pingParts] at h
      injection h with h
      subst h
      rfl
    | some m => simp [pingParts] at h
  | num x =>
    cases avg with
    | none =>
      simp only [pingParts] at h
      injection h with h
      subst h
      rfl
    | some m =>
      simp only [pingParts] at h
      injection h with h
      subst h
      simp only [hasFragment, List.any_cons, List.any_nil, Bool.or_false, pingFragment]
      exact not_prefix_of_append hl rfl ha

/-- The loss fragment list has a "Loss: " fragment exactly when the pool
mean exists and the current loss is a number. -/
lemma tryParts_loss_own (cur : Val) (avg : Option Q) :
    hasFragment (tryParts lossFragment cur avg) ("Loss: ") = (avg.isSome && usable cur) := by
  cases cur <;> cases avg <;>
    simp [tryParts, usable, hasFragment, lossFragment, strData_append, isPrefixOf_self_append]

/-- The loss fragment list contains no fragment with another label. -/
lemma tryParts_loss_other (cur : Val) (avg : Option Q) {lab : String} {a : Char}
    {l₁ : List Char} (hl : lab.data = a :: l₁) (ha : (a == 'L') = false) :
    hasFragment (tryParts lossFragment cur avg) lab = false := by
  cases cur with
  | num x =>
    cases avg with
    | none => rfl
    | some m =>
      simp only [tryParts, hasFragment, List.any_cons, List.any_nil, Bool.or_false, lossFragment]
      exact not_prefix_of_append hl rfl ha
  | absent => cases avg <;> rfl
  | nonnum => cases avg <;> rfl

/-- The average-FPS fragment list has an "Avg FPS: " fragment exactly when
the pool mean exists and the current value is a number. -/
lemma tryParts_fps_own (cur : Val) (avg : Option Q) :
    hasFragment (tryParts fpsFragment cur avg) ("Avg FPS: ") = (avg.isSome && usable cur) := by
  cases cur <;> cases avg <;>
    simp [tryParts, usable, hasFragment, fpsFragment, strData_append, isPrefixOf_self_append]

/-- The average-FPS fragment list contains no fragment with another
label. -/
lemma tryParts_fps_other (cur : Val) (avg : Option Q) {lab : String} {a : Char}
    {l₁ : List Char} (hl : lab.data = a :: l₁) (ha : (a == 'A') = false) :
    hasFragment (tryParts fpsFragment cur avg) lab = false := by
  cases cur with
  | num x =>
    cases avg with
    | none => rfl
    | some m =>
      simp only [tryParts, hasFragment, List.any_cons, List.any_nil, Bool.or_false, fpsFragment]
      exact not_prefix_of_append hl rfl ha
  | absent => cases avg <;> rfl
  | nonnum => cases avg <;> rfl

/-- The 1%-low fragment list has a "1% Low: " fragment exactly when the
pool mean exists and the current value is a number. -/
lemma tryParts_one_own (cur : Val) (avg : Option Q) :
    hasFragment (tryParts onePctFragment cur avg) ("1% Low: ") = (avg.isSome && usable cur) := by
  cases cur <;> cases avg <;>
    simp [tryParts, usable, hasFragment, onePctFragment, strData_append, isPrefixOf_self_append]

/-- The 1%-low fragment list contains no fragment with another label. -/
lemma tryParts_one_other (cur : Val) (avg : Option Q) {lab : String} {a : Char}
    {l₁ : List Char} (hl : lab.data = a :: l₁) (ha : (a == '1') = false) :
    hasFragment (tryParts onePctFragment cur avg) lab = false := by
  cases cur with
  | num x =>
    cases avg with
    | none => rfl
    | some m =>
      simp only [tryParts, hasFragment, List.any_cons, List.any_nil, Bool.or_false, onePctFragment]
      exact not_prefix_of_append hl rfl ha
  | absent => cases avg <;> rfl
  | nonnum => cases avg <;> rfl

/-- **C3, amended.** For every candidate pool and current record on which
`compare_vs_similar` does not raise, the `parts` list contains the CPU
fragment exactly when the pool CPU mean is computable (the current CPU
value never suppresses it, defaulting to 0), and contains each of the
ping / loss / average-FPS / 1%-low fragments exactly when that field's
pool mean is computable *and* the current session's own value is present
and numeric — an absent (or non-numeric) current value suppresses those
four fragments. -/
theorem compareParts_emits_iff (similar : List SessionRecord)
    (current : SessionRecord) (parts : List String)
    (h : compareParts similar current = Except.ok parts) :
    hasFragment parts ("CPU avg: ") = (mean_of (fun s => s.cpu_avg_pct) similar).isSome ∧
    hasFragment parts ("Ping: ") =
      ((mean_of (fun s => s.ping_ms) similar).isSome && usable current.ping_ms) ∧
    hasFragment parts ("Loss: ") =
      ((mean_of (fun s => s.packet_loss_pct) similar).isSome && usable current.packet_loss_pct) ∧
    hasFragment parts ("Avg FPS: ") =
      ((mean_of (fun s => s.avg_fps) similar).isSome && usable current.avg_fps) ∧
    hasFragment parts ("1% Low: ") =
      ((mean_of (fun s => s.one_percent_low) similar).isSome && usable current.one_percent_low) := by
  cases hc : floatOrZero current.cpu_avg_pct with
  | error e =>
    unfold compareParts at h
    rw [hc] at h
    simp at h
  | ok cc =>
    cases hp : pingParts current.ping_ms (mean_of (fun s => s.ping_ms) similar) with
    | error e =>
      unfold compareParts at h
      rw [hc, hp] at h
      simp at h
    | ok pp =>
      unfold compareParts at h
      rw [hc, hp] at h
      injection h with h
      subst h
      refine ⟨?_, ?_, ?_, ?_, ?_⟩
      · rw [hasFragment_append, hasFragment_append, hasFragment_append, hasFragment_append,
          cpuParts_own, pingParts_other _ _ _ hp rfl (by decide),
          tryParts_loss_other _ _ rfl (by decide), tryParts_fps_other _ _ rfl (by decide),
          tryParts_one_other _ _ rfl (by decide)]
        simp
      · rw [hasFragment_append, hasFragment_append, hasFragment_append, hasFragment_append,
          cpuParts_other _ _ rfl (by decide), pingParts_own _ _ _ hp,
          tryParts_loss_other _ _ rfl (by decide), tryParts_fps_other _ _ rfl (by decide),
          tryParts_one_other _ _ rfl (by decide)]
        simp
      · rw [hasFragment_append, hasFragment_append, hasFragment_append, hasFragment_append,
          cpuParts_other _ _ rfl (by decide), pingParts_other _ _ _ hp rfl (by decide),
          tryParts_loss_own, tryParts_fps_other _ _ rfl (by decide),
          tryParts_one_other _ _ rfl (by decide)]
        simp
      · rw [hasFragment_append, hasFragment_append, hasFragment_append, hasFragment_append,
          cpuParts_other _ _ rfl (by decide), pingParts_other _ _ _ hp rfl (by decide),
          tryParts_loss_other _ _ rfl (by decide), tryParts_fps_own,
          tryParts_one_other _ _ rfl (by decide)]
        simp
      · rw [hasFragment_append, hasFragment_append, hasFragment_append, hasFragment_append,
          cpuParts_other _ _ rfl (by decide), pingParts_other _ _ _ hp rfl (by decide),
          tryParts_loss_other _ _ rfl (by decide), tryParts_fps_other _ _ rfl (by decide),
          tryParts_one_own]
        simp

/-- Witness for `compareParts_emits_iff`: a pool whose only usable metric
is ping and a current session with a numeric ping. -/
theorem compareParts_emits_iff_witness :
    hasFragment [("Ping: 55ms vs 50.0ms (+5.0)")] ("CPU avg: ") =
      (mean_of (fun s => s.cpu_avg_pct) [recPing50]).isSome ∧
    hasFragment [("Ping: 55ms vs 50.0ms (+5.0)")] ("Ping: ") =
      ((mean_of (fun s => s.ping_ms) [recPing50]).isSome && usable curPing55.ping_ms) ∧
    hasFragment [("Ping: 55ms vs 50.0ms (+5.0)")] ("Loss: ") =
      ((mean_of (fun s => s.packet_loss_pct) [recPing50]).isSome && usable curPing55.packet_loss_pct) ∧
    hasFragment [("Ping: 55ms vs 50.0ms (+5.0)")] ("Avg FPS: ") =
      ((mean_of (fun s => s.avg_fps) [recPing50]).isSome && usable curPing55.avg_fps) ∧
    hasFragment [("Ping: 55ms vs 50.0ms (+5.0)")] ("1% Low: ") =
      ((mean_of (fun s => s.one_percent_low) [recPing50]).isSome && usable curPing55.one_percent_low) :=
  compareParts_emits_iff [recPing50] curPing55 [("Ping: 55ms vs 50.0ms (+5.0)")] (by decide)

/-- Members of a CPU fragment list are CPU fragments. -/
lemma cpuParts_mem {avg : Option Q} {cur : Q} {p : String}
    (h : p ∈ cpuParts avg cur) : ∃ m, avg = some m ∧ p = cpuFragment cur m := by
  cases avg with
  | none => simp [cpuParts] at h
  | some m =>
    simp [cpuParts] at h
    exact ⟨m, rfl, h⟩

/-- Members of a ping fragment list are ping fragments. -/
lemma pingParts_mem {cur : Val} {avg : Option Q} {l : List String} {p : String}
    (h : pingParts cur avg = Except.ok l) (hm : p ∈ l) :
    ∃ x m, cur = Val.num x ∧ avg = some m ∧ p = pingFragment (intTrunc x) m := by
  cases cur with
  | absent =>
    cases avg <;>
      · simp only [pingParts] at h
        injection h with h
        subst h
        simp at hm
  | nonnum =>
    cases avg with
    | none =>
      simp only [pingParts] at h
      injection h with h
      subst h
      simp at hm
    | some m => simp [pingParts] at h
  | num x =>
    cases avg with
    | none =>
      simp only [pingParts] at h
      injection h with h
      subst h
      simp at hm
    | some m =>
      simp only [pingParts] at h
      injection h with h
      subst h
      simp only [List.mem_singleton] at hm
      exact ⟨x, m, rfl, rfl, hm⟩

/-- Members of a `tryParts` list are fragments built by its builder. -/
lemma tryParts_mem {frag : Q → Q → String} {cur : Val} {avg : Option Q} {p : String}
    (h : p ∈ tryParts frag cur avg) :
    ∃ x m, cur = Val.num x ∧ avg = some m ∧ p = frag x m := by
  cases cur with
  | num x =>
    cases avg with
    | some m =>
      simp [tryParts] at h
      exact ⟨x, m, rfl, rfl, h⟩
    | none => simp [tryParts] at h
  | absent => cases avg <;> simp [tryParts] at h
  | nonnum => cases avg <;> simp [tryParts] at h

/-- **C4, amended.** Every fragment `compare_vs_similar` emits has one of
the five shapes, with these formats: CPU current, mean, and signed delta
with two decimal places; ping current as a plain integer (no decimal
point) but ping mean *and signed ping delta* with one decimal place;
loss, average FPS, and 1%-low current, mean, and signed delta with one
decimal place. -/
theorem compareParts_formats (similar : List SessionRecord)
    (current : SessionRecord) (parts : List String)
    (h : compareParts similar current = Except.ok parts) :
    ∀ p ∈ parts,
      (∃ a b c, p = "CPU avg: " ++ (a ++ ("% vs " ++ (b ++ ("% (" ++ (c ++ ")"))))) ∧
        fracCountL a.data = some 2 ∧ fracCountL b.data = some 2 ∧ fracCountL c.data = some 2) ∨
      (∃ a b c, p = "Ping: " ++ (a ++ ("ms vs " ++ (b ++ ("ms (" ++ (c ++ ")"))))) ∧
        fracCountL a.data = none ∧ fracCountL b.data = some 1 ∧ fracCountL c.data = some 1) ∨
      (∃ a b c, p = "Loss: " ++ (a ++ ("% vs " ++ (b ++ ("% (" ++ (c ++ ")"))))) ∧
        fracCountL a.data = some 1 ∧ fracCountL b.data = some 1 ∧ fracCountL c.data = some 1) ∨
      (∃ a b c, p = "Avg FPS: " ++ (a ++ (" vs " ++ (b ++ (" (" ++ (c ++ ")"))))) ∧
        fracCountL a.data = some 1 ∧ fracCountL b.data = some 1 ∧ fracCountL c.data = some 1) ∨
      (∃ a b c, p = "1% Low: " ++ (a ++ (" vs " ++ (b ++ (" (" ++ (c ++ ")"))))) ∧
        fracCountL a.data = some 1 ∧ fracCountL b.data = some 1 ∧ fracCountL c.data = some 1) := by
  cases hc : floatOrZero current.cpu_avg_pct with
  | error e =>
    unfold compareParts at h
    rw [hc] at h
    simp at h
  | ok cc =>
    cases hp : pingParts current.ping_ms (mean_of (fun s => s.ping_ms) similar) with
    | error e =>
      unfold compareParts at h
      rw [hc, hp] at h
      simp at h
    | ok pp =>
      unfold compareParts at h
      rw [hc, hp] at h
      injection h with h
      subst h
      intro p hpm
      rcases List.mem_append.mp hpm with h1 | h1
      · rcases List.mem_append.mp h1 with h2 | h2
        · rcases List.mem_append.mp h2 with h3 | h3
          · rcases List.mem_append.mp h3 with h4 | h4
            · obtain ⟨m, _, hpe⟩ := cpuParts_mem h4
              subst hpe
              exact Or.inl ⟨fmtFixed 2 cc, fmtFixed 2 m, fmtSigned 2 (Q.sub cc m), rfl,
                fmtFixed_fracCount 2 cc, fmtFixed_fracCount 2 m, fmtSigned_fracCount 2 _⟩
            · obtain ⟨x, m, _, _, hpe⟩ := pingParts_mem hp h4
              subst hpe
              exact Or.inr (Or.inl ⟨intStr (intTrunc x), fmtFixed 1 m,
                fmtSigned 1 (Q.sub (Q.ofInt (intTrunc x)) m), rfl,
                intStr_fracCount _, fmtFixed_fracCount 1 m, fmtSigned_fracCount 1 _⟩)
          · obtain ⟨x, m, _, _, hpe⟩ := tryParts_mem h3
            subst hpe
            exact Or.inr (Or.inr (Or.inl ⟨fmtFixed 1 x, fmtFixed 1 m, fmtSigned 1 (Q.sub x m), rfl,
              fmtFixed_fracCount 1 x, fmtFixed_fracCount 1 m, fmtSigned_fracCount 1 _⟩))
        · obtain ⟨x, m, _, _, hpe⟩ := tryParts_mem h2
          subst hpe
          exact Or.inr (Or.inr (Or.inr (Or.inl ⟨fmtFixed 1 x, fmtFixed 1 m, fmtSigned 1 (Q.sub x m), rfl,
            fmtFixed_fracCount 1 x, fmtFixed_fracCount 1 m, fmtSigned_fracCount 1 _⟩)))
      · obtain ⟨x, m, _, _, hpe⟩ := tryParts_mem h1
        subst hpe
        exact Or.inr (Or.inr (Or.inr (Or.inr ⟨fmtFixed 1 x, fmtFixed 1 m, fmtSigned 1 (Q.sub x m), rfl,
          fmtFixed_fracCount 1 x, fmtFixed_fracCount 1 m, fmtSigned_fracCount 1 _⟩)))

/-- Witness for `compareParts_formats`: the concrete emitted ping
fragment. -/
theorem compareParts_formats_witness :
    (∃ a b c, ("Ping: 55ms vs 50.0ms (+5.0)" : String) = "CPU avg: " ++ (a ++ ("% vs " ++ (b ++ ("% (" ++ (c ++ ")"))))) ∧
      fracCountL a.data = some 2 ∧ fracCountL b.data = some 2 ∧ fracCountL c.data = some 2) ∨
    (∃ a b c, ("Ping: 55ms vs 50.0ms (+5.0)" : String) = "Ping: " ++ (a ++ ("ms vs " ++ (b ++ ("ms (" ++ (c ++ ")"))))) ∧
      fracCountL a.data = none ∧ fracCountL b.data = some 1 ∧ fracCountL c.data = some 1) ∨
    (∃ a b c, ("Ping: 55ms vs 50.0ms (+5.0)" : String) = "Loss: " ++ (a ++ ("% vs " ++ (b ++ ("% (" ++ (c ++ ")"))))) ∧
      fracCountL a.data = some 1 ∧ fracCountL b.data = some 1 ∧ fracCountL c.data = some 1) ∨
    (∃ a b c, ("Ping: 55ms vs 50.0ms (+5.0)" : String) = "Avg FPS: " ++ (a ++ (" vs " ++ (b ++ (" (" ++ (c ++ ")"))))) ∧
      fracCountL a.data = some 1 ∧ fracCountL b.data = some 1 ∧ fracCountL c.data = some 1) ∨
    (∃ a b c, ("Ping: 55ms vs 50.0ms (+5.0)" : String) = "1% Low: " ++ (a ++ (" vs " ++ (b ++ (" (" ++ (c ++ ")"))))) ∧
      fracCountL a.data = some 1 ∧ fracCountL b.data = some 1 ∧ fracCountL c.data = some 1) :=
  compareParts_formats [recPing50] curPing55 [("Ping: 55ms vs 50.0ms (+5.0)")] (by decide)
    ("Ping: 55ms vs 50.0ms (+5.0)") (by decide)

/-- If no candidate has a usable value for a field, its pool mean is
`None`. -/
lemma mean_of_none (sel : SessionRecord → Val) (similar : List SessionRecord)
    (h : ∀ s ∈ similar, usable (sel s) = false) : mean_of sel similar = none := by
  unfold mean_of
  have he : similar.filterMap (fun s =>
      match sel s with
      | Val.num x => some x
      | _ => none) = [] := by
    rw [List.filterMap_eq_nil_iff]
    intro s hs
    have hu := h s hs
    cases hsel : sel s <;> simp_all [usable]
  rw [he]
  rfl

/-- With no ping mean, the ping branch emits nothing and cannot raise. -/
lemma pingParts_none (v : Val) : pingParts v none = Except.ok [] := by
  cases v <;> rfl

/-- With no pool mean, a `try`-guarded branch emits nothing. -/
lemma tryParts_none (frag : Q → Q → String) (v : Val) :
    tryParts frag v none = [] := by
  cases v <;> rfl

/-- **C8, amended.** `compare_vs_similar` returns exactly
`"No prior similar sessions found."` whenever the candidate pool is empty;
and whenever the pool is non-empty, every metric field of every candidate
is absent or non-numeric (so no field produces a fragment), *and* the
current record's CPU-average field is not a non-numeric string, it returns
the fixed not-enough-data message.  (With a non-numeric current CPU value
the call raises instead — see `compare_not_enough_data_can_raise`.) -/
theorem compare_vs_similar_messages :
    (∀ current, compare_vs_similar [] current =
      Except.ok ("No prior similar sessions found.")) ∧
    (∀ (similar : List SessionRecord) (current : SessionRecord),
      similar ≠ [] →
      (∀ s ∈ similar, usable s.cpu_avg_pct = false ∧ usable s.ping_ms = false ∧
        usable s.packet_loss_pct = false ∧ usable s.avg_fps = false ∧
        usable s.one_percent_low = false) →
      current.cpu_avg_pct ≠ Val.nonnum →
      compare_vs_similar similar current =
        Except.ok ("Similar sessions exist, but not enough comparable numeric fields logged yet.")) := by
  constructor
  · intro current
    rfl
  · intro similar current hne hfields hcpu
    have h1 : mean_of (fun s => s.cpu_avg_pct) similar = none :=
      mean_of_none _ _ (fun s hs => (hfields s hs).1)
    have h2 : mean_of (fun s => s.ping_ms) similar = none :=
      mean_of_none _ _ (fun s hs => (hfields s hs).2.1)
    have h3 : mean_of (fun s => s.packet_loss_pct) similar = none :=
      mean_of_none _ _ (fun s hs => (hfields s hs).2.2.1)
    have h4 : mean_of (fun s => s.avg_fps) similar = none :=
      mean_of_none _ _ (fun s hs => (hfields s hs).2.2.2.1)
    have h5 : mean_of (fun s => s.one_percent_low) similar = none :=
      mean_of_none _ _ (fun s hs => (hfields s hs).2.2.2.2)
    have hcc : ∃ cc, floatOrZero current.cpu_avg_pct = Except.ok cc := by
      cases hcv : current.cpu_avg_pct with
      | nonnum => exact absurd hcv hcpu
      | absent => exact ⟨Q.ofInt 0, rfl⟩
      | num x => exact ⟨x, rfl⟩
    obtain ⟨cc, hccv⟩ := hcc
    have hparts : compareParts similar current = Except.ok [] := by
      unfold compareParts
      rw [h2, pingParts_none, hccv, h1, h3, h4, h5, tryParts_none, tryParts_none, tryParts_none]
      rfl
    have hE : similar.isEmpty = false := by
      cases similar with
      | nil => exact absurd rfl hne
      | cons a l => rfl
    unfold compare_vs_similar
    rw [if_neg (by simp [hE]), hparts]
    rfl

/-- Witness for `compare_vs_similar_messages`: empty pool, and a pool of
one all-absent record against an all-absent current record. -/
theorem compare_vs_similar_messages_witness :
    compare_vs_similar [] curAllAbsent =
      Except.ok ("No prior similar sessions found.") ∧
    compare_vs_similar [recAllAbsent] curAllAbsent =
      Except.ok ("Similar sessions exist, but not enough comparable numeric fields logged yet.") :=
  ⟨compare_vs_similar_messages.1 curAllAbsent,
    compare_vs_similar_messages.2 [recAllAbsent] curAllAbsent (by decide) (by decide) (by decide)⟩

end Apex
